import Mathlib

/-
Verification of the promise/future primitive in include/edoren/Promise.hpp.

The C++ code is a header-only template library.  We shallowly embed the
template instantiated at arbitrary value types V (ResolveType) and
E (RejectType), both Inhabited because the C++ members m_value / m_error
are default-initialized (lines 117-118).

A SharedState is a Cell; because callback closures captured by the `then`
wiring settle OTHER shared states, we model a heap of cells (List (Cell V E))
addressed by CellId, and the three callback vectors of a cell store
first-order descriptions of exactly the closures the source can ever put
there:
  - the void `then` path (Promise.hpp lines 203-215) queues
      [func, newShared](auto and value) { func(value); newShared->resolve(value); }
    modelled by RCb.voidWrap (the captured func is either a user handler,
    observed through the event trace, or the inner wiring handler
    [newShared](auto and value) { newShared->resolve(value); } from line 222);
  - the promise `then` path (lines 216-230) queues a closure holding the
    user function, modelled by RCb.promWrap, where the user function is
    deep-embedded as V -> PSpec V E: the returned promise is fresh and is
    observationally determined by its settlement state;
  - `then` and `failed` queue reject-forwarding closures
    [newShared](auto and error) { newShared->reject(error); } (lines 211, 225)
    and user failure handlers (line 255), modelled by JHandler;
  - `finally` queues nullary user handlers (line 272), modelled by their id.

Execution of user handlers is recorded in an event trace (Event V E);
settlement functions are fueled to make the mutual recursion between
resolve/reject and callback execution structurally terminating; every
cross-call decrements the fuel, so any concrete run only needs enough fuel.
-/

set_option linter.unusedSectionVars false

namespace Edoren

/-- Promise.Status, Promise.hpp line 30. -/
inductive Status where
  | RESOLVED
  | REJECTED
  | ONGOING
deriving DecidableEq, Repr

/-- Index of a SharedState in the heap of all shared states. -/
abbrev CellId := Nat

/-- The func captured by the void-returning `then` wiring (line 207): either a
user success handler (identified by a number, invocation recorded in the
trace) or the inner wiring closure from line 222 that resolves a target. -/
inductive VHandler where
  | user (id : Nat)
  | resolveInto (t : CellId)
deriving DecidableEq, Repr

/-- A queued reject callback: either a wrapped user failure handler
(Promise::failed, line 255) or the forwarding closure
that rejects a target cell (lines 211, 225, 223). -/
inductive JHandler where
  | user (id : Nat)
  | rejectInto (t : CellId)
deriving DecidableEq, Repr

/-- Deep embedding of the promise returned by a user function passed to the
promise-returning `then` path: the returned promise is a fresh SharedState
that is already resolved, already rejected, or still ongoing. -/
inductive PSpec (V E : Type) where
  | resolved (v : V)
  | rejected (e : E)
  | pending

/-- A queued resolve callback (member m_resolveCallbacks, line 124).  The
source only ever stores the two closure shapes built inside `then`. -/
inductive RCb (V E : Type) where
  | voidWrap (hnd : VHandler) (target : CellId)
  | promWrap (fid : Nat) (f : V → PSpec V E) (target : CellId)

/-- Observable invocation of a user handler. -/
inductive Event (V E : Type) where
  | res (id : Nat) (v : V)
  | rej (id : Nat) (e : E)
  | fin (id : Nat)
deriving DecidableEq, Repr

/-- SharedState (Promise.hpp lines 40-127): status, stored value and error
(default-initialized members, lines 116-118) and the three callback
vectors.  The mutexes and the condition variable are synchronization
artifacts with no sequential content; the wait races they are involved in
are modelled separately (see the WaitRace section). -/
structure Cell (V E : Type) where
  status : Status
  value : V
  error : E
  resolveCallbacks : List (RCb V E)
  rejectCallbacks : List JHandler
  finallyCallbacks : List Nat

variable {V E : Type} [Inhabited V] [Inhabited E]

/-- The heap of all shared states created so far. -/
abbrev Heap (V E : Type) := List (Cell V E)

/-- Dereference a shared pointer. -/
def getCell (h : Heap V E) (c : CellId) : Option (Cell V E) :=
  h.get? c

def setCell (h : Heap V E) (c : CellId) (cell : Cell V E) : Heap V E :=
  h.set c cell

def mapCell (h : Heap V E) (c : CellId) (f : Cell V E → Cell V E) : Heap V E :=
  match h.get? c with
  | some cell => h.set c (f cell)
  | none => h

/-- std::make_shared of a SharedState: append a cell, return its id. -/
def alloc (h : Heap V E) (cell : Cell V E) : Heap V E × CellId :=
  (h ++ [cell], h.length)

/-- A freshly constructed SharedState: status ONGOING (line 116), value and
error default-initialized (lines 117-118), empty callback vectors. -/
def newCell : Cell V E :=
  { status := Status.ONGOING
    value := default
    error := default
    resolveCallbacks := []
    rejectCallbacks := []
    finallyCallbacks := [] }

/-- SharedState::appendResolveCallback (lines 96-98): push_back. -/
def appendRCb (h : Heap V E) (c : CellId) (cb : RCb V E) : Heap V E :=
  mapCell h c (fun cl => { cl with resolveCallbacks := cl.resolveCallbacks ++ [cb] })

/-- SharedState::appendRejectCallback (lines 100-102). -/
def appendJCb (h : Heap V E) (c : CellId) (cb : JHandler) : Heap V E :=
  mapCell h c (fun cl => { cl with rejectCallbacks := cl.rejectCallbacks ++ [cb] })

/-- SharedState::appendFinallyCallback (lines 104-106). -/
def appendFCb (h : Heap V E) (c : CellId) (id : Nat) : Heap V E :=
  mapCell h c (fun cl => { cl with finallyCallbacks := cl.finallyCallbacks ++ [id] })

/-- The cell of the promise a user function returns, per its PSpec.  A
promise built by Promise::Resolve / Promise::Reject / a non-settling
executor is a fresh SharedState with empty callback vectors whose status,
value and error are as below (see PromiseResolve_eq / PromiseReject_eq,
which prove that the factory code from the source produces exactly this). -/
def specCell : PSpec V E → Cell V E
  | PSpec.resolved v => { (newCell : Cell V E) with status := Status.RESOLVED, value := v }
  | PSpec.rejected e => { (newCell : Cell V E) with status := Status.REJECTED, error := e }
  | PSpec.pending => newCell

/-- Allocate the promise returned by a user function in the promise-returning
`then` path (PromiseRetType other = func(value), line 221). -/
def interpPSpec (h : Heap V E) (s : PSpec V E) : Heap V E × CellId :=
  alloc h (specCell s)

mutual

/-- SharedState::resolve (lines 42-59): under the lock, if ONGOING, set
status RESOLVED, store the value, run every queued resolve callback with
the value in order, then every finally callback in order, then clear the
resolve and finally vectors (the reject vector is NOT cleared); otherwise
do nothing. -/
def resolve (fuel : Nat) (h : Heap V E) (c : CellId) (v : V) :
    Heap V E × List (Event V E) :=
  match fuel with
  | 0 => (h, [])
  | fuel + 1 =>
    match getCell h c with
    | none => (h, [])
    | some cell =>
      if cell.status = Status.ONGOING then
        let h1 := setCell h c { cell with status := Status.RESOLVED, value := v }
        let r := runRCbs fuel h1 cell.resolveCallbacks v
        let h3 := mapCell r.1 c
          (fun cl => { cl with resolveCallbacks := [], finallyCallbacks := [] })
        (h3, r.2 ++ cell.finallyCallbacks.map Event.fin)
      else (h, [])

/-- SharedState::reject (lines 61-78): symmetric; runs the reject callbacks
with the error, then the finally callbacks, then clears the reject and
finally vectors (the resolve vector is NOT cleared). -/
def reject (fuel : Nat) (h : Heap V E) (c : CellId) (e : E) :
    Heap V E × List (Event V E) :=
  match fuel with
  | 0 => (h, [])
  | fuel + 1 =>
    match getCell h c with
    | none => (h, [])
    | some cell =>
      if cell.status = Status.ONGOING then
        let h1 := setCell h c { cell with status := Status.REJECTED, error := e }
        let r := runJCbs fuel h1 cell.rejectCallbacks e
        let h3 := mapCell r.1 c
          (fun cl => { cl with rejectCallbacks := [], finallyCallbacks := [] })
        (h3, r.2 ++ cell.finallyCallbacks.map Event.fin)
      else (h, [])

/-- The loop over m_resolveCallbacks (lines 47-49), in vector order. -/
def runRCbs (fuel : Nat) (h : Heap V E) (cbs : List (RCb V E)) (v : V) :
    Heap V E × List (Event V E) :=
  match fuel with
  | 0 => (h, [])
  | fuel + 1 =>
    match cbs with
    | [] => (h, [])
    | cb :: rest =>
      let r1 := runRCb fuel h cb v
      let r2 := runRCbs fuel r1.1 rest v
      (r2.1, r1.2 ++ r2.2)

/-- The loop over m_rejectCallbacks (lines 66-68), in vector order. -/
def runJCbs (fuel : Nat) (h : Heap V E) (cbs : List JHandler) (e : E) :
    Heap V E × List (Event V E) :=
  match fuel with
  | 0 => (h, [])
  | fuel + 1 =>
    match cbs with
    | [] => (h, [])
    | cb :: rest =>
      let r1 := runJHandler fuel h cb e
      let r2 := runJCbs fuel r1.1 rest e
      (r2.1, r1.2 ++ r2.2)

/-- Invoke one queued resolve callback with the settled value. -/
def runRCb (fuel : Nat) (h : Heap V E) (cb : RCb V E) (v : V) :
    Heap V E × List (Event V E) :=
  match fuel with
  | 0 => (h, [])
  | fuel + 1 =>
    match cb with
    | RCb.voidWrap hnd t =>
      -- func(value); newShared->resolve(value);   (lines 207-210)
      let r1 := runVHandler fuel h hnd v
      let r2 := resolve fuel r1.1 t v
      (r2.1, r1.2 ++ r2.2)
    | RCb.promWrap fid f t =>
      -- PromiseRetType other = func(value);
      -- other.then([newShared](auto and value) { newShared->resolve(value); });
      -- other.failed([newShared](auto and error) { newShared->reject(error); });
      --   (lines 220-224)
      let o := interpPSpec h (f v)
      let r1 := thenVoid fuel o.1 (some o.2) (VHandler.resolveInto t)
      let r2 := failedM fuel r1.1 (some o.2) default (JHandler.rejectInto t)
      (r2.1, Event.res fid v :: (r1.2.1 ++ r2.2.1))

/-- Invoke the func captured by a void-returning `then` closure. -/
def runVHandler (fuel : Nat) (h : Heap V E) (hnd : VHandler) (v : V) :
    Heap V E × List (Event V E) :=
  match fuel with
  | 0 => (h, [])
  | fuel + 1 =>
    match hnd with
    | VHandler.user id => (h, [Event.res id v])
    | VHandler.resolveInto t => resolve fuel h t v

/-- Invoke one queued reject callback with the settled error. -/
def runJHandler (fuel : Nat) (h : Heap V E) (hnd : JHandler) (e : E) :
    Heap V E × List (Event V E) :=
  match fuel with
  | 0 => (h, [])
  | fuel + 1 =>
    match hnd with
    | JHandler.user id => (h, [Event.rej id e])
    | JHandler.rejectInto t => reject fuel h t e

/-- Promise::then for a void-returning continuation (lines 167-215, the
is_void branches).  The handle is an Option CellId (none models a moved-out
handle, m_shared == nullptr).  Returns the new heap, the events fired
inline, and the returned handle:
  - no cell or REJECTED (line 173): func is not invoked, return *this;
  - RESOLVED (lines 195-198): func(getValue()) inline, return *this;
  - ONGOING (lines 202-215): make a fresh SharedState, queue the wrapping
    resolve callback and the reject-forwarding callback on the parent,
    return a handle to the fresh cell. -/
def thenVoid (fuel : Nat) (h : Heap V E) (p : Option CellId) (hnd : VHandler) :
    Heap V E × List (Event V E) × Option CellId :=
  match fuel with
  | 0 => (h, [], p)
  | fuel + 1 =>
    match p with
    | none => (h, [], none)
    | some c =>
      match getCell h c with
      | none => (h, [], some c)
      | some cell =>
        if cell.status = Status.REJECTED then (h, [], some c)
        else if cell.status = Status.RESOLVED then
          let r := runVHandler fuel h hnd cell.value
          (r.1, r.2, some c)
        else
          let a := alloc h (newCell : Cell V E)
          let h2 := appendRCb a.1 c (RCb.voidWrap hnd a.2)
          let h3 := appendJCb h2 c (JHandler.rejectInto a.2)
          (h3, [], some a.2)

/-- Promise::failed (lines 241-259).  mvErr is the synthesized
RejectType("Promise has been moved") reason (lines 243-249):
  - no cell: func(mvErr) immediately, return *this (still empty);
  - REJECTED: func(getError()) inline, return *this;
  - ONGOING: queue the handler on the reject vector, return *this;
  - RESOLVED: nothing, return *this. -/
def failedM (fuel : Nat) (h : Heap V E) (p : Option CellId) (mvErr : E)
    (hnd : JHandler) : Heap V E × List (Event V E) × Option CellId :=
  match fuel with
  | 0 => (h, [], p)
  | fuel + 1 =>
    match p with
    | none =>
      let r := runJHandler fuel h hnd mvErr
      (r.1, r.2, none)
    | some c =>
      match getCell h c with
      | none => (h, [], some c)
      | some cell =>
        if cell.status = Status.REJECTED then
          let r := runJHandler fuel h hnd cell.error
          (r.1, r.2, some c)
        else if cell.status = Status.ONGOING then
          (appendJCb h c hnd, [], some c)
        else (h, [], some c)

end

/-- Promise::then for a promise-returning continuation (lines 167-239, the
non-void branches).  sameResTy is the compile-time constant
std::is_same_v of ResolveType and PromiseRetType::ResolveType (line 177);
nonInitErr is the synthesized RejectType("Non-initialized promise")
(lines 182-186).  Behavior:
  - no cell: if the returned promise type has the same success type,
    return *this, the still-empty handle (lines 177-178); otherwise return
    PromiseRetType::Reject(nonInitErr) (lines 180-187);
  - REJECTED: func is not invoked; same success type returns *this
    (line 178), otherwise PromiseRetType::Reject(getError()) (line 188);
  - RESOLVED (line 200): return func(getValue()) directly, inline;
  - ONGOING (lines 216-230): make a fresh SharedState of the returned
    promise type, queue the promise-wrapping resolve callback and the
    reject-forwarding callback on the parent, return the fresh cell. -/
def thenProm (h : Heap V E) (p : Option CellId) (sameResTy : Bool)
    (nonInitErr : E) (fid : Nat) (f : V → PSpec V E) :
    Heap V E × List (Event V E) × Option CellId :=
  match p with
  | none =>
    if sameResTy then (h, [], none)
    else
      let a := alloc h (specCell (PSpec.rejected nonInitErr))
      (a.1, [], some a.2)
  | some c =>
    match getCell h c with
    | none => (h, [], some c)
    | some cell =>
      if cell.status = Status.REJECTED then
        if sameResTy then (h, [], some c)
        else
          let a := alloc h (specCell (PSpec.rejected cell.error))
          (a.1, [], some a.2)
      else if cell.status = Status.RESOLVED then
        let a := interpPSpec h (f cell.value)
        (a.1, [Event.res fid cell.value], some a.2)
      else
        let a := alloc h (newCell : Cell V E)
        let h2 := appendRCb a.1 c (RCb.promWrap fid f a.2)
        let h3 := appendJCb h2 c (JHandler.rejectInto a.2)
        (h3, [], some a.2)

/-- Promise::finally (lines 261-276): no cell means return *this doing
nothing; already settled (status not ONGOING) invokes the nullary handler
inline; ONGOING queues it. -/
def finallyM (h : Heap V E) (p : Option CellId) (id : Nat) :
    Heap V E × List (Event V E) × Option CellId :=
  match p with
  | none => (h, [], none)
  | some c =>
    match getCell h c with
    | none => (h, [], some c)
    | some cell =>
      if cell.status = Status.ONGOING then (appendFCb h c id, [], some c)
      else (h, [Event.fin id], some c)

/- Promise::wait (lines 278-282) delegates to SharedState::wait; its
blocking behavior is modelled separately (WaitRace below). -/

/-- A promise whose executor stores the callables without settling
(lines 130-140): just a fresh SharedState. -/
def mkPending (h : Heap V E) : Heap V E × CellId :=
  alloc h (newCell : Cell V E)

/-- Promise::Resolve (lines 146-151): a fresh SharedState, immediately
resolved. -/
def PromiseResolve (h : Heap V E) (v : V) : Heap V E × CellId :=
  let a := alloc h (newCell : Cell V E)
  ((resolve 2 a.1 a.2 v).1, a.2)

/-- Promise::Reject (lines 153-158): a fresh SharedState, immediately
rejected. -/
def PromiseReject (h : Heap V E) (e : E) : Heap V E × CellId :=
  let a := alloc h (newCell : Cell V E)
  ((reject 2 a.1 a.2 e).1, a.2)

/-- One external settlement attempt on a cell, for reasoning about
sequences of resolve/reject calls. -/
inductive SettleOp (V E : Type) where
  | res (v : V)
  | rej (e : E)

/-- Apply a sequence of resolve/reject calls to one cell, in order,
collecting the events. -/
def applySettles (fuel : Nat) (h : Heap V E) (c : CellId) :
    List (SettleOp V E) → Heap V E × List (Event V E)
  | [] => (h, [])
  | op :: rest =>
    let r1 :=
      match op with
      | SettleOp.res v => resolve fuel h c v
      | SettleOp.rej e => reject fuel h c e
    let r2 := applySettles fuel r1.1 c rest
    (r2.1, r1.2 ++ r2.2)

section WaitRace

/-
Model of the interleaving between SharedState::wait (lines 108-113) and
SharedState::resolve running on another thread.  wait() is two separately
scheduled actions: it first reads m_status WITHOUT holding any lock
(line 109), then acquires m_signalMutex and blocks on the condition
variable m_signaler (lines 110-111).  resolve mutates m_status and calls
m_signaler.notify_all while holding m_fulfilledMutex (lines 43-55), a
DIFFERENT mutex, so the whole of resolve can be scheduled between the two
waiter actions.  A condition-variable notification wakes only threads
already blocked; one sent before the waiter blocks is lost.
-/

/-- The two mutexes of a SharedState (lines 119, 122). -/
inductive MutexId where
  | fulfilledMutex
  | signalMutex
deriving DecidableEq, Repr

/-- The lock held by resolve/reject while mutating m_status and calling
notify_all (lines 43, 62: std::lock_guard on m_fulfilledMutex). -/
def settleNotifyLock : MutexId := MutexId.fulfilledMutex

/-- The lock the condition variable in wait blocks on (line 110:
std::unique_lock on m_signalMutex). -/
def waitBlockLock : MutexId := MutexId.signalMutex

/-- Progress of a thread executing wait(). -/
inductive WaiterPhase where
  | atCheck      -- before the unsynchronized status read of line 109
  | checked      -- saw ONGOING, has not yet blocked on the cv (line 111)
  | blocked      -- inside m_signaler.wait, needs a future notify_all
  | returned     -- wait() has returned
deriving DecidableEq, Repr

/-- Joint state of one waiter thread and one settler thread sharing a
SharedState.  settlerDone records that the resolve call has completed. -/
structure WaitRace where
  status : Status
  waiter : WaiterPhase
  settlerDone : Bool
deriving DecidableEq, Repr

/-- Atomic scheduler actions of the two threads. -/
inductive RaceStep where
  | waiterCheck     -- execute the status read of line 109
  | waiterBlock     -- enter m_signaler.wait (line 111)
  | settlerResolve  -- run the whole of resolve (lines 42-59) at once
deriving DecidableEq, Repr

/-- One scheduled action.  waiterCheck returns from wait immediately when
the status is already settled; settlerResolve sets the status and its
notify_all wakes the waiter only if it is already blocked. -/
def raceStep (s : WaitRace) : RaceStep → WaitRace
  | RaceStep.waiterCheck =>
    if s.waiter = WaiterPhase.atCheck then
      if s.status = Status.ONGOING then { s with waiter := WaiterPhase.checked }
      else { s with waiter := WaiterPhase.returned }
    else s
  | RaceStep.waiterBlock =>
    if s.waiter = WaiterPhase.checked then { s with waiter := WaiterPhase.blocked }
    else s
  | RaceStep.settlerResolve =>
    if s.settlerDone then s
    else if s.status = Status.ONGOING then
      { status := Status.RESOLVED
        waiter := if s.waiter = WaiterPhase.blocked then WaiterPhase.returned else s.waiter
        settlerDone := true }
    else { s with settlerDone := true }

/-- Run a schedule. -/
def raceRun (s : WaitRace) (steps : List RaceStep) : WaitRace :=
  steps.foldl raceStep s

/-- Initial state: pending cell, waiter about to check, settler not yet
run. -/
def raceInit : WaitRace :=
  { status := Status.ONGOING, waiter := WaiterPhase.atCheck, settlerDone := false }

/-- The lost-wakeup schedule: the waiter reads ONGOING, the settler then
runs resolve to completion (including notify_all), and only then does the
waiter block on the condition variable. -/
def lostWakeupSchedule : List RaceStep :=
  [RaceStep.waiterCheck, RaceStep.settlerResolve, RaceStep.waiterBlock]

end WaitRace

/- ------------------------------------------------------------------ -/
/- Heap helper lemmas                                                  -/
/- ------------------------------------------------------------------ -/

lemma getCell_lt {h : Heap V E} {c : CellId} {cl : Cell V E}
    (hg : getCell h c = some cl) : c < h.length := by
  unfold getCell at hg
  rw [List.get?_eq_getElem?] at hg
  exact (List.getElem?_eq_some.mp hg).1

lemma getCell_set_self {h : Heap V E} {c : CellId} {cl : Cell V E}
    (hg : getCell h c = some cl) (x : Cell V E) :
    getCell (setCell h c x) c = some x := by
  unfold getCell setCell
  exact List.get?_set_eq_of_lt x (getCell_lt hg)

lemma getCell_set_ne {h : Heap V E} {c t : CellId} (hne : t ≠ c)
    (x : Cell V E) : getCell (setCell h t x) c = getCell h c := by
  unfold getCell setCell
  exact List.get?_set_ne x h hne

lemma getCell_append {h : Heap V E} {c : CellId} {cl : Cell V E}
    (hg : getCell h c = some cl) (h2 : Heap V E) :
    getCell (h ++ h2) c = some cl := by
  unfold getCell at hg ⊢
  rw [List.get?_append (getCell_lt hg)]
  exact hg

lemma getCell_concat_self (h : Heap V E) (x : Cell V E) :
    getCell (h ++ [x]) h.length = some x := by
  unfold getCell
  exact List.get?_concat_length h x

lemma getCell_mapCell_ne {h : Heap V E} {c t : CellId} (hne : t ≠ c)
    (f : Cell V E → Cell V E) : getCell (mapCell h t f) c = getCell h c := by
  unfold mapCell
  cases hg : h.get? t with
  | none => rfl
  | some cl => exact getCell_set_ne hne (f cl)

lemma getCell_mapCell_self {h : Heap V E} {t : CellId} {cl : Cell V E}
    (hg : getCell h t = some cl) (f : Cell V E → Cell V E) :
    getCell (mapCell h t f) t = some (f cl) := by
  unfold mapCell
  rw [show h.get? t = some cl from hg]
  exact getCell_set_self hg (f cl)

lemma setCell_concat_last (h : Heap V E) (x y : Cell V E) :
    setCell (h ++ [x]) h.length y = h ++ [y] := by
  unfold setCell
  induction h with
  | nil => rfl
  | cons a h ih => simpa [List.set] using ih

lemma mapCell_concat_last (h : Heap V E) (x : Cell V E)
    (f : Cell V E → Cell V E) : mapCell (h ++ [x]) h.length f = h ++ [f x] := by
  unfold mapCell
  rw [show (h ++ [x]).get? h.length = some x from getCell_concat_self h x]
  exact setCell_concat_last h x (f x)

lemma getCell_appendRCb_ne {h : Heap V E} {c t : CellId} (hne : t ≠ c)
    (cb : RCb V E) : getCell (appendRCb h t cb) c = getCell h c :=
  getCell_mapCell_ne hne _

lemma getCell_appendJCb_ne {h : Heap V E} {c t : CellId} (hne : t ≠ c)
    (cb : JHandler) : getCell (appendJCb h t cb) c = getCell h c :=
  getCell_mapCell_ne hne _

lemma getCell_appendFCb_ne {h : Heap V E} {c t : CellId} (hne : t ≠ c)
    (id : Nat) : getCell (appendFCb h t id) c = getCell h c :=
  getCell_mapCell_ne hne _

/- ------------------------------------------------------------------ -/
/- Settled cells are never touched again                               -/
/- ------------------------------------------------------------------ -/

/-- Every cell settled in h still has exactly the same contents in h2. -/
def FrozenAt (h h2 : Heap V E) : Prop :=
  ∀ c cl, getCell h c = some cl → cl.status ≠ Status.ONGOING → getCell h2 c = some cl

lemma frozenAt_refl (h : Heap V E) : FrozenAt h h := fun _ _ hg _ => hg

lemma frozenAt_trans {h1 h2 h3 : Heap V E} (a : FrozenAt h1 h2)
    (b : FrozenAt h2 h3) : FrozenAt h1 h3 :=
  fun c cl hg hs => b c cl (a c cl hg hs) hs

lemma frozenAt_append (h l : Heap V E) : FrozenAt h (h ++ l) :=
  fun _ _ hg _ => getCell_append hg l

lemma ne_of_status_ne {h : Heap V E} {t c : CellId} {cellT cl : Cell V E}
    (hgt : getCell h t = some cellT) (hgc : getCell h c = some cl)
    (hot : cellT.status = Status.ONGOING) (hs : cl.status ≠ Status.ONGOING) :
    t ≠ c := by
  rintro rfl
  rw [hgt] at hgc
  cases hgc
  exact hs hot

/-- The nine step functions never modify a cell that is already settled:
all mutation falls on cells that are ONGOING at the time (the settling
transition itself, list appends) or freshly allocated. -/
lemma settledFrozen : ∀ fuel : Nat,
    (∀ (h : Heap V E) (t : CellId) (v : V), FrozenAt h (resolve fuel h t v).1) ∧
    (∀ (h : Heap V E) (t : CellId) (e : E), FrozenAt h (reject fuel h t e).1) ∧
    (∀ (h : Heap V E) (cbs : List (RCb V E)) (v : V),
      FrozenAt h (runRCbs fuel h cbs v).1) ∧
    (∀ (h : Heap V E) (cbs : List JHandler) (e : E),
      FrozenAt h (runJCbs fuel h cbs e).1) ∧
    (∀ (h : Heap V E) (cb : RCb V E) (v : V), FrozenAt h (runRCb fuel h cb v).1) ∧
    (∀ (h : Heap V E) (hnd : VHandler) (v : V),
      FrozenAt h (runVHandler fuel h hnd v).1) ∧
    (∀ (h : Heap V E) (hnd : JHandler) (e : E),
      FrozenAt h (runJHandler fuel h hnd e).1) ∧
    (∀ (h : Heap V E) (p : Option CellId) (hnd : VHandler),
      FrozenAt h (thenVoid fuel h p hnd).1) ∧
    (∀ (h : Heap V E) (p : Option CellId) (me : E) (hnd : JHandler),
      FrozenAt h (failedM fuel h p me hnd).1) := by
  intro fuel
  induction fuel with
  | zero =>
    refine ⟨?_, ?_, ?_, ?_, ?_, ?_, ?_, ?_, ?_⟩
    all_goals
      intros
      simp only [resolve, reject, runRCbs, runJCbs, runRCb, runVHandler,
        runJHandler, thenVoid, failedM]
      exact frozenAt_refl _
  | succ n ih =>
    obtain ⟨ihRes, ihRej, ihRcbs, ihJcbs, ihRcb, ihVh, ihJh, ihTv, ihFm⟩ := ih
    refine ⟨?_, ?_, ?_, ?_, ?_, ?_, ?_, ?_, ?_⟩
    · -- resolve
      intro h t v
      cases hgt : getCell h t with
      | none =>
        simp only [resolve, hgt]
        exact frozenAt_refl _
      | some cellT =>
        by_cases hst : cellT.status = Status.ONGOING
        · simp only [resolve, hgt, hst, if_true]
          intro c cl hg hs
          have hne : t ≠ c := ne_of_status_ne hgt hg hst hs
          rw [getCell_mapCell_ne hne]
          refine ihRcbs _ _ _ c cl ?_ hs
          rw [getCell_set_ne hne]
          exact hg
        · simp only [resolve, hgt, if_neg hst]
          exact frozenAt_refl _
    · -- reject
      intro h t e
      cases hgt : getCell h t with
      | none =>
        simp only [reject, hgt]
        exact frozenAt_refl _
      | some cellT =>
        by_cases hst : cellT.status = Status.ONGOING
        · simp only [reject, hgt, hst, if_true]
          intro c cl hg hs
          have hne : t ≠ c := ne_of_status_ne hgt hg hst hs
          rw [getCell_mapCell_ne hne]
          refine ihJcbs _ _ _ c cl ?_ hs
          rw [getCell_set_ne hne]
          exact hg
        · simp only [reject, hgt, if_neg hst]
          exact frozenAt_refl _
    · -- runRCbs
      intro h cbs v
      cases cbs with
      | nil =>
        simp only [runRCbs]
        exact frozenAt_refl _
      | cons cb rest =>
        simp only [runRCbs]
        exact frozenAt_trans (ihRcb h cb v) (ihRcbs _ rest v)
    · -- runJCbs
      intro h cbs e
      cases cbs with
      | nil =>
        simp only [runJCbs]
        exact frozenAt_refl _
      | cons cb rest =>
        simp only [runJCbs]
        exact frozenAt_trans (ihJh h cb e) (ihJcbs _ rest e)
    · -- runRCb
      intro h cb v
      cases cb with
      | voidWrap hnd t =>
        simp only [runRCb]
        exact frozenAt_trans (ihVh h hnd v) (ihRes _ t v)
      | promWrap fid f t =>
        simp only [runRCb, interpPSpec, alloc]
        exact frozenAt_trans (frozenAt_append h _)
          (frozenAt_trans (ihTv _ _ _) (ihFm _ _ _ _))
    · -- runVHandler
      intro h hnd v
      cases hnd with
      | user id =>
        simp only [runVHandler]
        exact frozenAt_refl _
      | resolveInto t =>
        simp only [runVHandler]
        exact ihRes h t v
    · -- runJHandler
      intro h hnd e
      cases hnd with
      | user id =>
        simp only [runJHandler]
        exact frozenAt_refl _
      | rejectInto t =>
        simp only [runJHandler]
        exact ihRej h t e
    · -- thenVoid
      intro h p hnd
      cases p with
      | none =>
        simp only [thenVoid]
        exact frozenAt_refl _
      | some c0 =>
        cases hgc : getCell h c0 with
        | none =>
          simp only [thenVoid, hgc]
          exact frozenAt_refl _
        | some cell0 =>
          by_cases hr : cell0.status = Status.REJECTED
          · simp only [thenVoid, hgc, if_pos hr]
            exact frozenAt_refl _
          · by_cases hv : cell0.status = Status.RESOLVED
            · simp only [thenVoid, hgc, if_neg hr, if_pos hv]
              exact ihVh h hnd cell0.value
            · have ho : cell0.status = Status.ONGOING := by
                cases hcs : cell0.status <;> simp_all
              simp only [thenVoid, hgc, if_neg hr, if_neg hv]
              intro c cl hg hs
              have hne : c0 ≠ c := ne_of_status_ne hgc hg ho hs
              rw [getCell_appendJCb_ne hne, getCell_appendRCb_ne hne]
              exact getCell_append hg _
    · -- failedM
      intro h p me hnd
      cases p with
      | none =>
        simp only [failedM]
        exact ihJh h hnd me
      | some c0 =>
        cases hgc : getCell h c0 with
        | none =>
          simp only [failedM, hgc]
          exact frozenAt_refl _
        | some cell0 =>
          by_cases hr : cell0.status = Status.REJECTED
          · simp only [failedM, hgc, if_pos hr]
            exact ihJh h hnd cell0.error
          · by_cases ho : cell0.status = Status.ONGOING
            · simp only [failedM, hgc, if_neg hr, if_pos ho]
              intro c cl hg hs
              have hne : c0 ≠ c := ne_of_status_ne hgc hg ho hs
              rw [getCell_appendJCb_ne hne]
              exact hg
            · simp only [failedM, hgc, if_neg hr, if_neg ho]
              exact frozenAt_refl _

lemma frozen_resolve (fuel : Nat) (h : Heap V E) (t : CellId) (v : V) :
    FrozenAt h (resolve fuel h t v).1 :=
  (settledFrozen fuel).1 h t v

lemma frozen_reject (fuel : Nat) (h : Heap V E) (t : CellId) (e : E) :
    FrozenAt h (reject fuel h t e).1 :=
  (settledFrozen fuel).2.1 h t e

lemma frozen_runRCbs (fuel : Nat) (h : Heap V E) (cbs : List (RCb V E)) (v : V) :
    FrozenAt h (runRCbs fuel h cbs v).1 :=
  (settledFrozen fuel).2.2.1 h cbs v

lemma frozen_runJCbs (fuel : Nat) (h : Heap V E) (cbs : List JHandler) (e : E) :
    FrozenAt h (runJCbs fuel h cbs e).1 :=
  (settledFrozen fuel).2.2.2.1 h cbs e

/- ------------------------------------------------------------------ -/
/- Read accessors (SharedState, lines 80-90)                           -/
/- ------------------------------------------------------------------ -/

/-- SharedState::getStatus (lines 80-82). -/
def getStatus (cl : Cell V E) : Status := cl.status

/-- SharedState::getValue (lines 84-86): returns m_value unconditionally. -/
def getValue (cl : Cell V E) : V := cl.value

/-- SharedState::getError (lines 88-90): returns m_error unconditionally. -/
def getError (cl : Cell V E) : E := cl.error

/- ------------------------------------------------------------------ -/
/- Settlement lemmas                                                   -/
/- ------------------------------------------------------------------ -/

/-- resolve on a settled cell is a complete no-op (lines 44, 56-58). -/
lemma resolve_noop {h : Heap V E} {c : CellId} {cl : Cell V E}
    (hg : getCell h c = some cl) (hs : cl.status ≠ Status.ONGOING)
    (fuel : Nat) (v : V) : resolve (fuel + 1) h c v = (h, []) := by
  simp only [resolve, hg, if_neg hs]

/-- reject on a settled cell is a complete no-op (lines 63, 75-77). -/
lemma reject_noop {h : Heap V E} {c : CellId} {cl : Cell V E}
    (hg : getCell h c = some cl) (hs : cl.status ≠ Status.ONGOING)
    (fuel : Nat) (e : E) : reject (fuel + 1) h c e = (h, []) := by
  simp only [reject, hg, if_neg hs]

/-- resolve on a pending cell settles it: status RESOLVED, the value
stored, the resolve and finally vectors cleared, everything else kept. -/
lemma resolve_settles {h : Heap V E} {c : CellId} {cl : Cell V E}
    (hg : getCell h c = some cl) (hs : cl.status = Status.ONGOING)
    (fuel : Nat) (v : V) :
    getCell (resolve (fuel + 1) h c v).1 c =
      some { cl with
        status := Status.RESOLVED
        value := v
        resolveCallbacks := []
        finallyCallbacks := [] } := by
  simp only [resolve, hg, hs, if_true]
  have hg1 : getCell (setCell h c
      { cl with status := Status.RESOLVED, value := v }) c =
      some { cl with status := Status.RESOLVED, value := v } :=
    getCell_set_self hg _
  have hg2 := frozen_runRCbs fuel _ cl.resolveCallbacks v _ _ hg1 (by simp)
  rw [getCell_mapCell_self hg2]

/-- reject on a pending cell settles it: status REJECTED, the error
stored, the reject and finally vectors cleared, everything else kept. -/
lemma reject_settles {h : Heap V E} {c : CellId} {cl : Cell V E}
    (hg : getCell h c = some cl) (hs : cl.status = Status.ONGOING)
    (fuel : Nat) (e : E) :
    getCell (reject (fuel + 1) h c e).1 c =
      some { cl with
        status := Status.REJECTED
        error := e
        rejectCallbacks := []
        finallyCallbacks := [] } := by
  simp only [reject, hg, hs, if_true]
  have hg1 : getCell (setCell h c
      { cl with status := Status.REJECTED, error := e }) c =
      some { cl with status := Status.REJECTED, error := e } :=
    getCell_set_self hg _
  have hg2 := frozen_runJCbs fuel _ cl.rejectCallbacks e _ _ hg1 (by simp)
  rw [getCell_mapCell_self hg2]

/-- A whole sequence of settlement attempts on an already-settled cell
changes nothing and fires nothing. -/
lemma applySettles_noop {h : Heap V E} {c : CellId} {cl : Cell V E}
    (hg : getCell h c = some cl) (hs : cl.status ≠ Status.ONGOING)
    (fuel : Nat) (ops : List (SettleOp V E)) :
    applySettles (fuel + 1) h c ops = (h, []) := by
  induction ops with
  | nil => rfl
  | cons op rest ih =>
    cases op with
    | res v => simp only [applySettles, resolve_noop hg hs, ih, List.nil_append]
    | rej e => simp only [applySettles, reject_noop hg hs, ih, List.nil_append]

/- ------------------------------------------------------------------ -/
/- Chains of queued user handlers                                      -/
/- ------------------------------------------------------------------ -/

/-- Call p.then(user handler) once for each id, left to right, on a
pending promise; each call queues a callback pair (lines 202-215). -/
def queueThens (h : Heap V E) (c : CellId) : List Nat → Heap V E
  | [] => h
  | id :: rest => queueThens (thenVoid 1 h (some c) (VHandler.user id)).1 c rest

/-- Call p.failed(user handler) once for each id, left to right. -/
def queueFaileds (h : Heap V E) (c : CellId) : List Nat → Heap V E
  | [] => h
  | id :: rest =>
    queueFaileds (failedM 1 h (some c) default (JHandler.user id)).1 c rest

/-- Call p.finally(user handler) once for each id, left to right. -/
def queueFins (h : Heap V E) (c : CellId) : List Nat → Heap V E
  | [] => h
  | id :: rest => queueFins (finallyM h (some c) id).1 c rest

/-- The resolve callbacks queued by then-chaining user handlers ids when
the fresh target cells are numbered m, m+1, ... -/
def chainRCbs (m : CellId) : List Nat → List (RCb V E)
  | [] => []
  | id :: rest => RCb.voidWrap (VHandler.user id) m :: chainRCbs (m + 1) rest

/-- The reject-forwarding callbacks queued alongside chainRCbs. -/
def chainJFwds (m : CellId) : List Nat → List JHandler
  | [] => []
  | _ :: rest => JHandler.rejectInto m :: chainJFwds (m + 1) rest

lemma getCell_cons_succ (a : Cell V E) (l : Heap V E) (k : Nat) :
    getCell (a :: l) (k + 1) = getCell l k := rfl

lemma getCell_replicate {k n : Nat} (hk : k < n) (x : Cell V E) :
    getCell (List.replicate n x) k = some x := by
  unfold getCell
  rw [List.get?_eq_getElem?]
  simp [List.getElem?_eq_some, hk]

/-- queueThens on a pending cell 0 whose heap is the cell plus n fresh
cells: every then call appends one wrapped resolve callback and one
reject forwarder to cell 0 and allocates one fresh target. -/
lemma queueThens_build : ∀ (ids : List Nat) (cl0 : Cell V E) (n : Nat),
    cl0.status = Status.ONGOING →
    queueThens (cl0 :: List.replicate n (newCell : Cell V E)) 0 ids =
      { cl0 with
        resolveCallbacks := cl0.resolveCallbacks ++ chainRCbs (n + 1) ids
        rejectCallbacks := cl0.rejectCallbacks ++ chainJFwds (n + 1) ids } ::
      List.replicate (n + ids.length) (newCell : Cell V E) := by
  intro ids
  induction ids with
  | nil =>
    intro cl0 n h0
    simp [queueThens, chainRCbs, chainJFwds]
  | cons id rest ih =>
    intro cl0 n h0
    rw [queueThens]
    have hthen : (thenVoid 1 (cl0 :: List.replicate n (newCell : Cell V E))
        (some 0) (VHandler.user id)).1 =
        { cl0 with
          resolveCallbacks :=
            cl0.resolveCallbacks ++ [RCb.voidWrap (VHandler.user id) (n + 1)]
          rejectCallbacks :=
            cl0.rejectCallbacks ++ [JHandler.rejectInto (n + 1)] } ::
        List.replicate (n + 1) (newCell : Cell V E) := by
      simp only [thenVoid, getCell, List.get?, h0, alloc, appendRCb, appendJCb,
        mapCell]
      simp [List.set, h0, List.length_replicate, List.replicate_succ',
        List.cons_append]
    rw [hthen, ih { cl0 with
      resolveCallbacks := cl0.resolveCallbacks ++ [RCb.voidWrap (VHandler.user id) (n + 1)]
      rejectCallbacks := cl0.rejectCallbacks ++ [JHandler.rejectInto (n + 1)] } (n + 1) h0]
    simp only [chainRCbs, chainJFwds, List.length_cons]
    rw [show n + 1 + rest.length = n + (rest.length + 1) from by omega]
    simp [List.append_assoc]

/-- queueFaileds on a pending cell 0 appends the user failure handlers to
the reject vector, in order, touching nothing else (line 255). -/
lemma queueFaileds_build : ∀ (ids : List Nat) (cl0 : Cell V E) (tl : Heap V E),
    cl0.status = Status.ONGOING →
    queueFaileds (cl0 :: tl) 0 ids =
      { cl0 with rejectCallbacks :=
          cl0.rejectCallbacks ++ ids.map JHandler.user } :: tl := by
  intro ids
  induction ids with
  | nil =>
    intro cl0 tl h0
    simp [queueFaileds]
  | cons id rest ih =>
    intro cl0 tl h0
    rw [queueFaileds]
    have hf : (failedM 1 (cl0 :: tl) (some 0) default (JHandler.user id)).1 =
        { cl0 with rejectCallbacks :=
            cl0.rejectCallbacks ++ [JHandler.user id] } :: tl := by
      simp only [failedM, getCell, List.get?, h0, appendJCb, mapCell]
      simp [List.set, h0]
    rw [hf, ih { cl0 with
      rejectCallbacks := cl0.rejectCallbacks ++ [JHandler.user id] } tl h0]
    simp [List.append_assoc]

/-- queueFins on a pending cell 0 appends the finally handlers, in order
(line 272). -/
lemma queueFins_build : ∀ (gs : List Nat) (cl0 : Cell V E) (tl : Heap V E),
    cl0.status = Status.ONGOING →
    queueFins (cl0 :: tl) 0 gs =
      { cl0 with finallyCallbacks := cl0.finallyCallbacks ++ gs } :: tl := by
  intro gs
  induction gs with
  | nil =>
    intro cl0 tl h0
    simp [queueFins]
  | cons g rest ih =>
    intro cl0 tl h0
    rw [queueFins]
    have hf : (finallyM (cl0 :: tl) (some 0) g).1 =
        { cl0 with finallyCallbacks := cl0.finallyCallbacks ++ [g] } :: tl := by
      simp only [finallyM, getCell, List.get?, h0, appendFCb, mapCell]
      simp [List.set, h0]
    rw [hf, ih { cl0 with
      finallyCallbacks := cl0.finallyCallbacks ++ [g] } tl h0]
    simp [List.append_assoc]

/-- Resolving a cell with no queued resolve or finally callbacks fires no
events and modifies no other cell. -/
lemma resolve_clean_target {h : Heap V E} {t : CellId} {cl : Cell V E}
    (hg : getCell h t = some cl) (hr : cl.resolveCallbacks = [])
    (hf : cl.finallyCallbacks = []) (fuel : Nat) (v : V) :
    (resolve (fuel + 1) h t v).2 = [] ∧
    ∀ c, c ≠ t → getCell (resolve (fuel + 1) h t v).1 c = getCell h c := by
  by_cases hs : cl.status = Status.ONGOING
  · have hrun : ∀ (h2 : Heap V E),
        runRCbs fuel h2 ([] : List (RCb V E)) v = (h2, []) := by
      intro h2
      cases fuel <;> simp [runRCbs]
    constructor
    · simp [resolve, hg, hs, hr, hf, hrun]
    · intro c hne
      simp only [resolve, hg, hs, if_true, hr, hf, hrun]
      rw [getCell_mapCell_ne (fun he => hne he.symm),
        getCell_set_ne (fun he => hne he.symm)]
  · rw [resolve_noop hg hs fuel v]
    exact ⟨rfl, fun _ _ => rfl⟩

/-- Running a chain of wrapped user success handlers whose targets are
fresh clean cells fires exactly one observable event per handler, with
the settled value, in registration order. -/
lemma runRCbs_chain_events :
    ∀ (ids : List Nat) (fuel m : Nat) (h : Heap V E) (v : V),
    ids.length + 3 ≤ fuel →
    (∀ k, k < ids.length → ∃ cl, getCell h (m + k) = some cl ∧
      cl.resolveCallbacks = [] ∧ cl.finallyCallbacks = []) →
    (runRCbs fuel h (chainRCbs m ids) v).2 = ids.map fun i => Event.res i v := by
  intro ids
  induction ids with
  | nil =>
    intro fuel m h v hfuel htgt
    obtain ⟨f, rfl⟩ : ∃ f, fuel = f + 1 := ⟨fuel - 1, by omega⟩
    simp [chainRCbs, runRCbs]
  | cons id rest ih =>
    intro fuel m h v hfuel htgt
    simp only [List.length_cons] at hfuel
    obtain ⟨f, rfl⟩ : ∃ f, fuel = f + 1 := ⟨fuel - 1, by omega⟩
    obtain ⟨f1, rfl⟩ : ∃ f1, f = f1 + 1 := ⟨f - 1, by omega⟩
    obtain ⟨f2, rfl⟩ : ∃ f2, f1 = f2 + 1 := ⟨f1 - 1, by omega⟩
    obtain ⟨cl, hcl, hclr, hclf⟩ := htgt 0 (by simp)
    have hres := resolve_clean_target (t := m)
      (by simpa using hcl) hclr hclf f2 v
    rw [chainRCbs]
    rw [runRCbs]
    rw [runRCb]
    rw [runVHandler]
    have hrest : (runRCbs (f2 + 1 + 1) (resolve (f2 + 1) h m v).1
        (chainRCbs (m + 1) rest) v).2 = rest.map fun i => Event.res i v := by
      refine ih (f2 + 1 + 1) (m + 1) _ v (by omega) ?_
      intro k hk
      obtain ⟨cl2, hcl2, h2r, h2f⟩ := htgt (k + 1) (by simp; omega)
      refine ⟨cl2, ?_, h2r, h2f⟩
      have hne : m + 1 + k ≠ m := by omega
      rw [hres.2 (m + 1 + k) hne]
      rw [show m + 1 + k = m + (k + 1) by omega]
      exact hcl2
    simp [hres.1, hrest]

/-- Running queued user failure handlers fires one event per handler, in
order, and does not touch the heap. -/
lemma runJCbs_users :
    ∀ (ids : List Nat) (fuel : Nat) (h : Heap V E) (e : E),
    ids.length + 1 ≤ fuel →
    runJCbs fuel h (ids.map JHandler.user) e =
      (h, ids.map fun i => Event.rej i e) := by
  intro ids
  induction ids with
  | nil =>
    intro fuel h e hfuel
    obtain ⟨f, rfl⟩ : ∃ f, fuel = f + 1 := ⟨fuel - 1, by omega⟩
    simp [runJCbs]
  | cons id rest ih =>
    intro fuel h e hfuel
    obtain ⟨f, rfl⟩ : ∃ f, fuel = f + 1 := ⟨fuel - 1, by omega⟩
    obtain ⟨f1, rfl⟩ : ∃ f1, f = f1 + 1 := ⟨f - 1, by simp at hfuel; omega⟩
    rw [List.map_cons, runJCbs, runJHandler]
    simp only [List.length_cons] at hfuel
    rw [ih (f1 + 1) h e (by omega)]
    simp

/-- A promise whose executor never settles, with user success handlers ids
queued through then and finally handlers gs queued through finally. -/
def thenFinSetup (ids gs : List Nat) : Heap V E :=
  let a := mkPending ([] : Heap V E)
  queueFins (queueThens a.1 a.2 ids) a.2 gs

/-- A promise whose executor never settles, with user failure handlers ids
queued through failed and finally handlers gs queued through finally. -/
def failedFinSetup (ids gs : List Nat) : Heap V E :=
  let a := mkPending ([] : Heap V E)
  queueFins (queueFaileds a.1 a.2 ids) a.2 gs

lemma thenFinSetup_eq (ids gs : List Nat) :
    (thenFinSetup ids gs : Heap V E) =
      { status := Status.ONGOING
        value := default
        error := default
        resolveCallbacks := chainRCbs 1 ids
        rejectCallbacks := chainJFwds 1 ids
        finallyCallbacks := gs } ::
      List.replicate ids.length (newCell : Cell V E) := by
  unfold thenFinSetup mkPending alloc
  simp only [List.nil_append, List.length_nil]
  rw [show ([newCell] : Heap V E) = newCell :: List.replicate 0 newCell from rfl]
  rw [queueThens_build ids newCell 0 rfl]
  rw [queueFins_build gs _ _ rfl]
  simp [newCell]

lemma failedFinSetup_eq (ids gs : List Nat) :
    (failedFinSetup ids gs : Heap V E) =
      [{ status := Status.ONGOING
         value := default
         error := default
         resolveCallbacks := []
         rejectCallbacks := ids.map JHandler.user
         finallyCallbacks := gs }] := by
  unfold failedFinSetup mkPending alloc
  simp only [List.nil_append, List.length_nil]
  rw [show ([newCell] : Heap V E) = newCell :: ([] : Heap V E) from rfl]
  rw [queueFaileds_build ids newCell [] rfl]
  rw [queueFins_build gs _ _ rfl]
  simp [newCell]

/-- Promise::Resolve produces exactly a fresh already-resolved cell with
empty callback vectors: the factory code (make_shared + resolve) reduces
to the direct cell used by specCell. -/
lemma PromiseResolve_eq (h : Heap V E) (v : V) :
    PromiseResolve h v = (h ++ [specCell (PSpec.resolved v)], h.length) := by
  unfold PromiseResolve alloc
  simp only [resolve, getCell_concat_self]
  rw [if_pos (show (newCell : Cell V E).status = Status.ONGOING from rfl)]
  rw [setCell_concat_last]
  simp only [runRCbs]
  rw [show (newCell : Cell V E).resolveCallbacks = [] from rfl]
  rw [mapCell_concat_last]
  rfl

/-- Promise::Reject produces exactly a fresh already-rejected cell with
empty callback vectors. -/
lemma PromiseReject_eq (h : Heap V E) (e : E) :
    PromiseReject h e = (h ++ [specCell (PSpec.rejected e)], h.length) := by
  unfold PromiseReject alloc
  simp only [reject, getCell_concat_self]
  rw [if_pos (show (newCell : Cell V E).status = Status.ONGOING from rfl)]
  rw [setCell_concat_last]
  simp only [runJCbs]
  rw [show (newCell : Cell V E).rejectCallbacks = [] from rfl]
  rw [mapCell_concat_last]
  rfl

/- ------------------------------------------------------------------ -/
/- Claim C1                                                            -/
/- ------------------------------------------------------------------ -/

/-- Claim C1: for every cell and every sequence of resolve/reject calls on
it, only the first settlement call changes the cell.  If the cell is
already settled, any resolve, reject, or whole sequence of such calls
leaves the entire heap unchanged and fires no callback.  If the cell is
pending, the first call of the sequence fixes status, stored value or
error, and the cleared callback lists, and every later call in the
sequence leaves that outcome untouched, so getStatus/getValue/getError
read the first settlement forever. -/
theorem C1_single_settlement (fuel : Nat) (h : Heap V E) (c : CellId)
    (cl : Cell V E) (v : V) (e : E) (ops : List (SettleOp V E))
    (hg : getCell h c = some cl) :
    (cl.status ≠ Status.ONGOING →
      resolve (fuel + 1) h c v = (h, []) ∧
      reject (fuel + 1) h c e = (h, []) ∧
      applySettles (fuel + 1) h c ops = (h, [])) ∧
    (cl.status = Status.ONGOING →
      getCell (applySettles (fuel + 1) h c (SettleOp.res v :: ops)).1 c =
        some { cl with
          status := Status.RESOLVED
          value := v
          resolveCallbacks := []
          finallyCallbacks := [] } ∧
      getCell (applySettles (fuel + 1) h c (SettleOp.rej e :: ops)).1 c =
        some { cl with
          status := Status.REJECTED
          error := e
          rejectCallbacks := []
          finallyCallbacks := [] }) := by
  constructor
  · intro hs
    exact ⟨resolve_noop hg hs fuel v, reject_noop hg hs fuel e,
      applySettles_noop hg hs fuel ops⟩
  · intro hs
    constructor
    · have h1 := resolve_settles hg hs fuel v
      simp only [applySettles,
        applySettles_noop h1 (by simp) fuel ops]
      exact h1
    · have h1 := reject_settles hg hs fuel e
      simp only [applySettles,
        applySettles_noop h1 (by simp) fuel ops]
      exact h1

/-- Concrete run of C1_single_settlement: a pending cell resolved with 5
then redundantly rejected and re-resolved keeps value 5, and a settled
cell absorbs a resolve as a no-op. -/
theorem C1_single_settlement_witness :
    getCell (applySettles 1 ([newCell] : Heap Nat String) 0
      [SettleOp.res 5, SettleOp.rej "x", SettleOp.res 6]).1 0 =
      some { (newCell : Cell Nat String) with
        status := Status.RESOLVED
        value := 5
        resolveCallbacks := []
        finallyCallbacks := [] } ∧
    resolve 1 ([{ (newCell : Cell Nat String) with
        status := Status.REJECTED, error := "e" }] : Heap Nat String) 0 7 =
      ([{ (newCell : Cell Nat String) with
        status := Status.REJECTED, error := "e" }], []) := by
  constructor
  · exact ((C1_single_settlement 0 [newCell] 0 newCell 5 "x"
      [SettleOp.rej "x", SettleOp.res 6] rfl).2 rfl).1
  · exact ((C1_single_settlement 0
      ([{ (newCell : Cell Nat String) with status := Status.REJECTED, error := "e" }] :
        Heap Nat String) 0
      { (newCell : Cell Nat String) with status := Status.REJECTED, error := "e" }
      7 "y" [] rfl).1 (by simp)).1

/- ------------------------------------------------------------------ -/
/- Claim C2                                                            -/
/- ------------------------------------------------------------------ -/

/-- Claim C2: resolve(v) on a pending cell sets status RESOLVED, stores v,
invokes every queued resolve callback with v in insertion order, then
every queued finally callback in insertion order, then clears both lists;
reject(e) does the symmetric steps with the reject callbacks.  In both
cases the resolve/reject handler events strictly precede the finally
events of the same settlement. -/
theorem C2_settlement_order (ids gs : List Nat) (v : V) (e : E) (fuel : Nat)
    (hfuel : ids.length + 3 ≤ fuel) :
    ((resolve (fuel + 1) (thenFinSetup ids gs : Heap V E) 0 v).2 =
        (ids.map fun i => Event.res i v) ++ gs.map Event.fin ∧
      getCell (resolve (fuel + 1) (thenFinSetup ids gs : Heap V E) 0 v).1 0 =
        some { status := Status.RESOLVED
               value := v
               error := default
               resolveCallbacks := []
               rejectCallbacks := chainJFwds 1 ids
               finallyCallbacks := [] }) ∧
    ((reject (fuel + 1) (failedFinSetup ids gs : Heap V E) 0 e).2 =
        (ids.map fun i => Event.rej i e) ++ gs.map Event.fin ∧
      getCell (reject (fuel + 1) (failedFinSetup ids gs : Heap V E) 0 e).1 0 =
        some { status := Status.REJECTED
               value := default
               error := e
               resolveCallbacks := []
               rejectCallbacks := []
               finallyCallbacks := [] }) := by
  constructor
  · have hg : getCell (thenFinSetup ids gs : Heap V E) 0 =
        some { status := Status.ONGOING
               value := default
               error := default
               resolveCallbacks := chainRCbs 1 ids
               rejectCallbacks := chainJFwds 1 ids
               finallyCallbacks := gs } := by
      rw [thenFinSetup_eq]
      rfl
    constructor
    · simp only [resolve, hg, eq_self_iff_true, if_true]
      have hrun := runRCbs_chain_events ids fuel 1
        (setCell (thenFinSetup ids gs : Heap V E) 0
          { status := Status.RESOLVED
            value := v
            error := default
            resolveCallbacks := chainRCbs 1 ids
            rejectCallbacks := chainJFwds 1 ids
            finallyCallbacks := gs }) v hfuel ?_
      · rw [hrun]
      · intro k hk
        refine ⟨newCell, ?_, rfl, rfl⟩
        rw [getCell_set_ne (show (0 : Nat) ≠ 1 + k from by omega)]
        rw [show (1 + k : Nat) = k + 1 from Nat.add_comm 1 k]
        rw [thenFinSetup_eq, getCell_cons_succ]
        exact getCell_replicate hk newCell
    · have hres := resolve_settles hg rfl fuel v
      rw [hres]
  · have hg : getCell (failedFinSetup ids gs : Heap V E) 0 =
        some { status := Status.ONGOING
               value := default
               error := default
               resolveCallbacks := []
               rejectCallbacks := ids.map JHandler.user
               finallyCallbacks := gs } := by
      rw [failedFinSetup_eq]
      rfl
    constructor
    · simp only [reject, hg, eq_self_iff_true, if_true]
      rw [runJCbs_users ids fuel _ e (by omega)]
    · have hres := reject_settles hg rfl fuel e
      rw [hres]

/-- Concrete run of C2_settlement_order: three success handlers and one
finally handler fire in order with the value, then the finally, and two
failure handlers fire in order with the error before the finally. -/
theorem C2_settlement_order_witness :
    (resolve 7 (thenFinSetup [1, 2, 3] [9] : Heap Nat String) 0 42).2 =
      [Event.res 1 42, Event.res 2 42, Event.res 3 42, Event.fin 9] ∧
    (reject 7 (failedFinSetup [4, 5] [8] : Heap Nat String) 0 "E").2 =
      [Event.rej 4 "E", Event.rej 5 "E", Event.fin 8] := by
  have h1 := (C2_settlement_order (V := Nat) (E := String)
    [1, 2, 3] [9] 42 "unused" 6 (by simp)).1.1
  have h2 := (C2_settlement_order (V := Nat) (E := String)
    [4, 5] [8] 0 "E" 6 (by simp)).2.1
  exact ⟨by simpa using h1, by simpa using h2⟩

/- ------------------------------------------------------------------ -/
/- Claim C9                                                            -/
/- ------------------------------------------------------------------ -/

/-- Claim C9: for every success value v, a success handler attached via
then before the cell settles (queued path, left conjunct) and a success
handler attached after the cell has settled with v (inline path, right
conjunct) observe exactly the same single invocation with exactly v. -/
theorem C9_inline_queued_equivalent (id : Nat) (v : V) (f : Nat) :
    (resolve (f + 5) (thenFinSetup [id] [] : Heap V E) 0 v).2 =
      [Event.res id v] ∧
    (thenVoid 2 (PromiseResolve ([] : Heap V E) v).1 (some 0)
      (VHandler.user id)).2.1 = [Event.res id v] := by
  constructor
  · have hg : getCell (thenFinSetup [id] [] : Heap V E) 0 =
        some { status := Status.ONGOING
               value := default
               error := default
               resolveCallbacks := chainRCbs 1 [id]
               rejectCallbacks := chainJFwds 1 [id]
               finallyCallbacks := [] } := by
      rw [thenFinSetup_eq]
      rfl
    rw [show f + 5 = (f + 4) + 1 from rfl]
    simp only [resolve, hg, eq_self_iff_true, if_true]
    have hrun := runRCbs_chain_events [id] (f + 4) 1
      (setCell (thenFinSetup [id] [] : Heap V E) 0
        { status := Status.RESOLVED
          value := v
          error := default
          resolveCallbacks := chainRCbs 1 [id]
          rejectCallbacks := chainJFwds 1 [id]
          finallyCallbacks := [] }) v (by simp) ?_
    · simpa using hrun
    · intro k hk
      refine ⟨newCell, ?_, rfl, rfl⟩
      rw [getCell_set_ne (show (0 : Nat) ≠ 1 + k from by omega)]
      rw [show (1 + k : Nat) = k + 1 from Nat.add_comm 1 k]
      rw [thenFinSetup_eq, getCell_cons_succ]
      exact getCell_replicate hk newCell
  · rw [PromiseResolve_eq]
    simp [thenVoid, getCell, specCell, newCell, runVHandler]

/- ------------------------------------------------------------------ -/
/- Claim C4                                                            -/
/- ------------------------------------------------------------------ -/

/-- Claim C4: for every chain P.then(f).failed(h), if P rejects with error
e, the success handler is never invoked and the failure handler receives
exactly e.  Covered paths: P already rejected when then is called, with a
void-returning handler (conjuncts 1-2), a promise-returning handler of a
different success type (3-6) and of the same success type (7); and P still
pending when the chain is built, rejected afterwards, with a
void-returning handler (8-9) and a promise-returning handler (10).  In
every case the then events are empty (the success handler never runs, for
any deep-embedded handler f) and the failure handler fires with e
unaltered. -/
theorem C4_rejection_forwarding (e mv nie : E) (fid hid : Nat) (b : Bool)
    (f : V → PSpec V E) :
    (thenVoid 2 (PromiseReject ([] : Heap V E) e).1 (some 0)
        (VHandler.user fid) =
      ((PromiseReject ([] : Heap V E) e).1, [], some 0)) ∧
    ((failedM 2 (PromiseReject ([] : Heap V E) e).1 (some 0) mv
        (JHandler.user hid)).2.1 = [Event.rej hid e]) ∧
    ((thenProm (PromiseReject ([] : Heap V E) e).1 (some 0) false nie fid
        f).2.1 = []) ∧
    ((thenProm (PromiseReject ([] : Heap V E) e).1 (some 0) false nie fid
        f).2.2 = some 1) ∧
    (getCell (thenProm (PromiseReject ([] : Heap V E) e).1 (some 0) false
        nie fid f).1 1 =
      some { status := Status.REJECTED
             value := default
             error := e
             resolveCallbacks := []
             rejectCallbacks := []
             finallyCallbacks := [] }) ∧
    ((failedM 2 (thenProm (PromiseReject ([] : Heap V E) e).1 (some 0)
        false nie fid f).1 (some 1) mv (JHandler.user hid)).2.1 =
      [Event.rej hid e]) ∧
    (thenProm (PromiseReject ([] : Heap V E) e).1 (some 0) true nie fid f =
      ((PromiseReject ([] : Heap V E) e).1, [], some 0)) ∧
    ((reject 10
        (failedM 1 (thenVoid 1 ([newCell] : Heap V E) (some 0)
            (VHandler.user fid)).1
          (thenVoid 1 ([newCell] : Heap V E) (some 0)
            (VHandler.user fid)).2.2 mv
          (JHandler.user hid)).1 0 e).2 = [Event.rej hid e]) ∧
    (getCell (reject 10
        (failedM 1 (thenVoid 1 ([newCell] : Heap V E) (some 0)
            (VHandler.user fid)).1
          (thenVoid 1 ([newCell] : Heap V E) (some 0)
            (VHandler.user fid)).2.2 mv
          (JHandler.user hid)).1 0 e).1 1 =
      some { status := Status.REJECTED
             value := default
             error := e
             resolveCallbacks := []
             rejectCallbacks := []
             finallyCallbacks := [] }) ∧
    ((reject 10
        (failedM 1 (thenProm ([newCell] : Heap V E) (some 0) b nie fid
            f).1
          (thenProm ([newCell] : Heap V E) (some 0) b nie fid f).2.2 mv
          (JHandler.user hid)).1 0 e).2 = [Event.rej hid e]) := by
  refine ⟨?_, ?_, ?_, ?_, ?_, ?_, ?_, ?_, ?_, ?_⟩ <;>
    simp [PromiseReject_eq, thenVoid, thenProm, failedM, reject, runJCbs,
      runJHandler, getCell, setCell, mapCell, appendJCb, appendRCb, alloc,
      specCell, newCell, List.get?, List.set]

/- ------------------------------------------------------------------ -/
/- Claim C5                                                            -/
/- ------------------------------------------------------------------ -/

/-- Claim C5 counterexample: on an empty (moved-out) handle, a
promise-returning onFulfilled whose promise type has the SAME success
type as the parent does not produce a rejected handle carrying the
synthesized error: the source (lines 177-178) returns *this, so the
result is the still-empty handle and no cell exists at all.  Concrete
input: empty Promise of Nat with String errors, handler index 7 returning
a pending promise of the same type. -/
theorem C5_counterexample :
    ¬ ∃ c : CellId,
      (thenProm ([] : Heap Nat String) none true "Non-initialized promise"
        7 (fun _ => PSpec.pending)).2.2 = some c ∧
      ∃ cl, getCell (thenProm ([] : Heap Nat String) none true
          "Non-initialized promise" 7 (fun _ => PSpec.pending)).1 c =
        some cl ∧ cl.status = Status.REJECTED := by
  simp [thenProm]

/-- Claim C5 (amended): calling then(onFulfilled) on a handle whose cell
is absent or already Rejected never invokes onFulfilled (every event list
below is empty).  A void-returning handler yields the original handle
back.  A promise-returning handler whose promise type has a DIFFERENT
success type yields a fresh handle already rejected with the original
error, or with the synthesized non-initialized error when the handle was
empty; when the promise type has the SAME success type, the original
handle is returned as-is, so an empty handle stays empty and a rejected
cell is returned unchanged. -/
theorem C5_then_on_empty_or_rejected (e nie : E) (fid : Nat)
    (f : V → PSpec V E) :
    (thenVoid 2 ([] : Heap V E) none (VHandler.user fid) = ([], [], none)) ∧
    (thenProm ([] : Heap V E) none false nie fid f =
      ([specCell (PSpec.rejected nie)], [], some 0)) ∧
    (thenProm ([] : Heap V E) none true nie fid f = ([], [], none)) ∧
    (thenVoid 2 (PromiseReject ([] : Heap V E) e).1 (some 0)
        (VHandler.user fid) =
      ((PromiseReject ([] : Heap V E) e).1, [], some 0)) ∧
    (thenProm (PromiseReject ([] : Heap V E) e).1 (some 0) false nie fid f =
      ((PromiseReject ([] : Heap V E) e).1 ++ [specCell (PSpec.rejected e)],
        [], some 1)) ∧
    (thenProm (PromiseReject ([] : Heap V E) e).1 (some 0) true nie fid f =
      ((PromiseReject ([] : Heap V E) e).1, [], some 0)) := by
  refine ⟨?_, ?_, ?_, ?_, ?_, ?_⟩ <;>
    simp [PromiseReject_eq, thenVoid, thenProm, getCell, alloc, specCell,
      newCell, List.get?]

/- ------------------------------------------------------------------ -/
/- Claim C6                                                            -/
/- ------------------------------------------------------------------ -/

/-- Claim C6: then(onFulfilled) on a cell that is already Fulfilled
invokes onFulfilled exactly once, inline, with the stored value (the
event list is exactly one invocation with v), and the result becomes the
return value directly: a void-returning handler yields the original
handle back, a promise-returning handler yields exactly the promise it
returned (the fresh cell holds specCell (f v)); in particular a handler
returning Promise.Reject e on a resolved parent yields a handle rejected
with e. -/
theorem C6_then_on_resolved_inline (v : V) (nie : E) (fid : Nat) (b : Bool)
    (f : V → PSpec V E) :
    (thenVoid 2 (PromiseResolve ([] : Heap V E) v).1 (some 0)
        (VHandler.user fid) =
      ((PromiseResolve ([] : Heap V E) v).1, [Event.res fid v], some 0)) ∧
    (thenProm (PromiseResolve ([] : Heap V E) v).1 (some 0) b nie fid f =
      ((PromiseResolve ([] : Heap V E) v).1 ++ [specCell (f v)],
        [Event.res fid v], some 1)) ∧
    (∀ e : E,
      getCell (thenProm (PromiseResolve ([] : Heap V E) v).1 (some 0) b nie
          fid (fun _ => PSpec.rejected e)).1 1 =
        some { status := Status.REJECTED
               value := default
               error := e
               resolveCallbacks := []
               rejectCallbacks := []
               finallyCallbacks := [] }) := by
  refine ⟨?_, ?_, ?_⟩ <;>
    simp [PromiseResolve_eq, thenVoid, thenProm, runVHandler, interpPSpec,
      getCell, alloc, specCell, newCell, List.get?]

/- ------------------------------------------------------------------ -/
/- Claim C7                                                            -/
/- ------------------------------------------------------------------ -/

/-- Claim C7: failed(onRejected) returns the same handle it was called on
and does not change any cell except for the queued append: on an empty
handle it invokes onRejected immediately with the synthesized moved
error; on a Rejected cell it invokes onRejected inline with the stored
error; on a Pending cell it queues onRejected on the reject-callback
list; on a Resolved cell it does nothing. -/
theorem C7_failed_channels (h : Heap V E) (c : CellId) (cl : Cell V E)
    (mv : E) (hid : Nat) (hg : getCell h c = some cl) :
    (failedM 2 h none mv (JHandler.user hid) =
      (h, [Event.rej hid mv], none)) ∧
    (cl.status = Status.REJECTED →
      failedM 2 h (some c) mv (JHandler.user hid) =
        (h, [Event.rej hid (getError cl)], some c)) ∧
    (cl.status = Status.ONGOING →
      failedM 2 h (some c) mv (JHandler.user hid) =
        (appendJCb h c (JHandler.user hid), [], some c)) ∧
    (cl.status = Status.RESOLVED →
      failedM 2 h (some c) mv (JHandler.user hid) = (h, [], some c)) := by
  refine ⟨?_, ?_, ?_, ?_⟩
  · simp [failedM, runJHandler]
  · intro hs
    simp [failedM, hg, hs, runJHandler, getError]
  · intro hs
    simp [failedM, hg, hs]
  · intro hs
    simp [failedM, hg, hs]

/-- Concrete runs of C7_failed_channels: failed on an already-rejected
cell of String errors fires inline with the stored error; failed on an
empty handle fires with the synthesized moved error and returns the empty
handle. -/
theorem C7_failed_channels_witness :
    failedM 2 ([specCell (PSpec.rejected "E")] : Heap Nat String) (some 0)
      "Promise has been moved" (JHandler.user 3) =
      ([specCell (PSpec.rejected "E")], [Event.rej 3 "E"], some 0) ∧
    failedM 2 ([specCell (PSpec.rejected "E")] : Heap Nat String) none
      "Promise has been moved" (JHandler.user 3) =
      ([specCell (PSpec.rejected "E")], [Event.rej 3 "Promise has been moved"],
        none) := by
  constructor
  · exact (C7_failed_channels [specCell (PSpec.rejected "E")] 0
      (specCell (PSpec.rejected "E")) "Promise has been moved" 3 rfl).2.1 rfl
  · exact (C7_failed_channels [specCell (PSpec.rejected "E")] 0
      (specCell (PSpec.rejected "E")) "Promise has been moved" 3 rfl).1

/- ------------------------------------------------------------------ -/
/- Claim C8                                                            -/
/- ------------------------------------------------------------------ -/

set_option maxHeartbeats 2000000 in
/-- Claim C8: a cell created by then on a still-pending parent settles
exactly once, derived from exactly one of the two parent outcomes.  For
the void-returning handler (parent cell 0, new cell 1): the new cell is
created pending; resolving the parent with v runs the handler and
resolves the new cell with the same v; rejecting the parent rejects the
new cell with the same error; and a second, contrary settlement of the
parent afterwards is a complete no-op.  For the promise-returning
handler: rejecting the parent rejects the new cell with the error;
resolving the parent settles the new cell according to the promise the
handler returns (resolved w forwards w, rejected e2 forwards e2), and
when the handler returns a still-pending promise (cell 2) the new cell
stays pending until that promise settles, whose outcome is then forwarded
resolve-to-resolve and reject-to-reject. -/
theorem C8_then_pending_wiring (v w : V) (e e2 nie : E) (fid : Nat)
    (b : Bool) :
    ((thenVoid 1 ([newCell] : Heap V E) (some 0) (VHandler.user fid)).2.2 =
      some 1) ∧
    (getCell (thenVoid 1 ([newCell] : Heap V E) (some 0)
        (VHandler.user fid)).1 1 = some (newCell : Cell V E)) ∧
    ((resolve 10 (thenVoid 1 ([newCell] : Heap V E) (some 0)
        (VHandler.user fid)).1 0 v).2 = [Event.res fid v]) ∧
    (getCell (resolve 10 (thenVoid 1 ([newCell] : Heap V E) (some 0)
        (VHandler.user fid)).1 0 v).1 1 =
      some { status := Status.RESOLVED
             value := v
             error := default
             resolveCallbacks := []
             rejectCallbacks := []
             finallyCallbacks := [] }) ∧
    (getCell (reject 10 (thenVoid 1 ([newCell] : Heap V E) (some 0)
        (VHandler.user fid)).1 0 e).1 1 =
      some { status := Status.REJECTED
             value := default
             error := e
             resolveCallbacks := []
             rejectCallbacks := []
             finallyCallbacks := [] }) ∧
    (reject 10 (resolve 10 (thenVoid 1 ([newCell] : Heap V E) (some 0)
        (VHandler.user fid)).1 0 v).1 0 e =
      ((resolve 10 (thenVoid 1 ([newCell] : Heap V E) (some 0)
        (VHandler.user fid)).1 0 v).1, [])) ∧
    (getCell (reject 10 (thenProm ([newCell] : Heap V E) (some 0) b nie fid
        (fun _ => PSpec.resolved w)).1 0 e).1 1 =
      some { status := Status.REJECTED
             value := default
             error := e
             resolveCallbacks := []
             rejectCallbacks := []
             finallyCallbacks := [] }) ∧
    (getCell (resolve 10 (thenProm ([newCell] : Heap V E) (some 0) b nie fid
        (fun _ => PSpec.resolved w)).1 0 v).1 1 =
      some { status := Status.RESOLVED
             value := w
             error := default
             resolveCallbacks := []
             rejectCallbacks := []
             finallyCallbacks := [] }) ∧
    (getCell (resolve 10 (thenProm ([newCell] : Heap V E) (some 0) b nie fid
        (fun _ => PSpec.rejected e2)).1 0 v).1 1 =
      some { status := Status.REJECTED
             value := default
             error := e2
             resolveCallbacks := []
             rejectCallbacks := []
             finallyCallbacks := [] }) ∧
    (getCell (resolve 10 (thenProm ([newCell] : Heap V E) (some 0) b nie fid
        (fun _ => PSpec.pending)).1 0 v).1 1 = some (newCell : Cell V E)) ∧
    (getCell (resolve 10 (resolve 10 (thenProm ([newCell] : Heap V E)
        (some 0) b nie fid (fun _ => PSpec.pending)).1 0 v).1 2 w).1 1 =
      some { status := Status.RESOLVED
             value := w
             error := default
             resolveCallbacks := []
             rejectCallbacks := []
             finallyCallbacks := [] }) ∧
    (getCell (reject 10 (resolve 10 (thenProm ([newCell] : Heap V E)
        (some 0) b nie fid (fun _ => PSpec.pending)).1 0 v).1 2 e2).1 1 =
      some { status := Status.REJECTED
             value := default
             error := e2
             resolveCallbacks := []
             rejectCallbacks := []
             finallyCallbacks := [] }) := by
  have hvoid : (thenVoid 1 ([newCell] : Heap V E) (some 0)
      (VHandler.user fid)).1 =
      [{ status := Status.ONGOING
         value := default
         error := default
         resolveCallbacks := [RCb.voidWrap (VHandler.user fid) 1]
         rejectCallbacks := [JHandler.rejectInto 1]
         finallyCallbacks := [] }, newCell] := by
    simp [thenVoid, getCell, appendRCb, appendJCb, mapCell, alloc, newCell,
      List.get?, List.set]
  have hvoidr : (resolve 10 (thenVoid 1 ([newCell] : Heap V E) (some 0)
      (VHandler.user fid)).1 0 v).1 =
      [{ status := Status.RESOLVED
         value := v
         error := default
         resolveCallbacks := []
         rejectCallbacks := [JHandler.rejectInto 1]
         finallyCallbacks := [] },
       { status := Status.RESOLVED
         value := v
         error := default
         resolveCallbacks := []
         rejectCallbacks := []
         finallyCallbacks := [] }] := by
    rw [hvoid]
    simp [resolve, runRCbs, runRCb, runVHandler, getCell, setCell, mapCell,
      newCell, List.get?, List.set]
  have hprom : (thenProm ([newCell] : Heap V E) (some 0) b nie fid
      (fun _ => PSpec.pending)).1 =
      [{ status := Status.ONGOING
         value := default
         error := default
         resolveCallbacks := [RCb.promWrap fid (fun _ => PSpec.pending) 1]
         rejectCallbacks := [JHandler.rejectInto 1]
         finallyCallbacks := [] }, newCell] := by
    simp [thenProm, getCell, appendRCb, appendJCb, mapCell, alloc, newCell,
      List.get?, List.set]
  have hpromr : (resolve 10 (thenProm ([newCell] : Heap V E) (some 0) b nie
      fid (fun _ => PSpec.pending)).1 0 v).1 =
      [{ status := Status.RESOLVED
         value := v
         error := default
         resolveCallbacks := []
         rejectCallbacks := [JHandler.rejectInto 1]
         finallyCallbacks := [] },
       newCell,
       { status := Status.ONGOING
         value := default
         error := default
         resolveCallbacks := [RCb.voidWrap (VHandler.resolveInto 1) 3]
         rejectCallbacks := [JHandler.rejectInto 3, JHandler.rejectInto 1]
         finallyCallbacks := [] },
       newCell] := by
    rw [hprom]
    simp [resolve, runRCbs, runRCb, runVHandler, thenVoid, failedM,
      interpPSpec, getCell, setCell, mapCell, appendRCb, appendJCb, alloc,
      specCell, newCell, List.get?, List.set]
  refine ⟨?_, ?_, ?_, ?_, ?_, ?_, ?_, ?_, ?_, ?_, ?_, ?_⟩
  · simp [thenVoid, getCell, alloc, newCell, List.get?]
  · rw [hvoid]
    rfl
  · rw [hvoid]
    simp [resolve, runRCbs, runRCb, runVHandler, getCell, setCell, mapCell,
      newCell, List.get?, List.set]
  · rw [hvoidr]
    rfl
  · rw [hvoid]
    simp [reject, runJCbs, runJHandler, getCell, setCell, mapCell, newCell,
      List.get?, List.set]
  · rw [hvoidr]
    simp [reject, getCell, List.get?]
  · simp [thenProm, reject, runJCbs, runJHandler, getCell, setCell, mapCell,
      appendRCb, appendJCb, alloc, newCell, List.get?, List.set]
  · simp [thenProm, resolve, runRCbs, runRCb, runVHandler, thenVoid,
      failedM, interpPSpec, getCell, setCell, mapCell, appendRCb, appendJCb,
      alloc, specCell, newCell, List.get?, List.set]
  · simp [thenProm, resolve, runRCbs, runRCb, runVHandler, thenVoid,
      failedM, runJHandler, interpPSpec, getCell, setCell, mapCell,
      appendRCb, appendJCb, alloc, specCell, newCell, List.get?, List.set]
  · rw [hpromr]
    rfl
  · rw [hpromr]
    simp [resolve, runRCbs, runRCb, runVHandler, getCell, setCell, mapCell,
      newCell, List.get?, List.set]
  · rw [hpromr]
    simp [reject, runJCbs, runJHandler, getCell, setCell, mapCell, newCell,
      List.get?, List.set]

/- ------------------------------------------------------------------ -/
/- Claim C10                                                           -/
/- ------------------------------------------------------------------ -/

/-- Claim C10: the read accessors are total functions and on a Pending
cell return the default-constructed members: getValue and getError of a
freshly constructed cell are the defaults (m_value and m_error are
default-initialized members, not optionals), the executor path allocates
exactly such a cell, and likewise getError of a fulfilled cell and
getValue of a rejected cell are the defaults. -/
theorem C10_accessor_defaults (h : Heap V E) (v : V) (e : E) :
    (getValue (newCell : Cell V E) = (default : V) ∧
      getError (newCell : Cell V E) = (default : E) ∧
      getStatus (newCell : Cell V E) = Status.ONGOING) ∧
    (getCell (mkPending h).1 (mkPending h).2 = some (newCell : Cell V E)) ∧
    (∃ cl, getCell (PromiseResolve h v).1 (PromiseResolve h v).2 = some cl ∧
      getStatus cl = Status.RESOLVED ∧ getValue cl = v ∧
      getError cl = (default : E)) ∧
    (∃ cl, getCell (PromiseReject h e).1 (PromiseReject h e).2 = some cl ∧
      getStatus cl = Status.REJECTED ∧ getError cl = e ∧
      getValue cl = (default : V)) := by
  refine ⟨⟨rfl, rfl, rfl⟩, ?_, ?_, ?_⟩
  · exact getCell_concat_self h newCell
  · rw [PromiseResolve_eq]
    exact ⟨specCell (PSpec.resolved v), getCell_concat_self h _, rfl, rfl, rfl⟩
  · rw [PromiseReject_eq]
    exact ⟨specCell (PSpec.rejected e), getCell_concat_self h _, rfl, rfl, rfl⟩

/- ------------------------------------------------------------------ -/
/- Claim C3                                                            -/
/- ------------------------------------------------------------------ -/

/-- Claim C3 is violated by the code: the notification and the status
mutation are NOT synchronized through the same exclusion mechanism, and
wait can miss the wakeup.  resolve/reject mutate m_status and call
notify_all under m_fulfilledMutex (lines 43, 55, 62, 74) while wait reads
m_status with no lock (line 109) and blocks on m_signaler under the
separate m_signalMutex (lines 110-111), so the two locks differ (first
conjunct) and the whole of resolve can be scheduled between the status
check of wait and its blocking call.  Under that schedule the cell ends
up RESOLVED with the waiter still blocked, and no further scheduling step
can ever change the state again: wait never returns even though the
promise is settled (a lost wakeup). -/
theorem C3_wait_lost_wakeup :
    settleNotifyLock ≠ waitBlockLock ∧
    (raceRun raceInit lostWakeupSchedule).status = Status.RESOLVED ∧
    (raceRun raceInit lostWakeupSchedule).waiter = WaiterPhase.blocked ∧
    ∀ steps : List RaceStep,
      raceRun (raceRun raceInit lostWakeupSchedule) steps =
        raceRun raceInit lostWakeupSchedule := by
  refine ⟨by decide, by decide, by decide, ?_⟩
  intro steps
  induction steps with
  | nil => rfl
  | cons st rest ih =>
    have hstep : raceStep (raceRun raceInit lostWakeupSchedule) st =
        raceRun raceInit lostWakeupSchedule := by
      cases st <;> decide
    calc raceRun (raceRun raceInit lostWakeupSchedule) (st :: rest)
        = raceRun (raceStep (raceRun raceInit lostWakeupSchedule) st) rest :=
          rfl
      _ = raceRun (raceRun raceInit lostWakeupSchedule) rest := by rw [hstep]
      _ = raceRun raceInit lostWakeupSchedule := ih

end Edoren
